import Mathlib

/-!
Verification of the erkl/relay intercepting HTTP/HTTPS forward proxy.

The Go sources are shallowly embedded: pure helpers become Lean functions,
stateful code threads its state explicitly, machine integers become Nat/Int,
and fallible calls return Option/Except. External collaborators (the heat
HTTP toolkit, net/url, x509/rsa crypto, SHA-256) are not part of this
repository; they are modelled at their interfaces, as parameters or as
records of functions, following the words of the specification.
-/

namespace Relay

/-- A single HTTP header field, a name/value pair (heat.Field). -/
structure Field where
  name : String
  value : String
deriving DecidableEq, Repr

/-- An ordered header field list, possibly with repeated names (heat.Fields). -/
abbrev Fields := List Field

/-- Lower-cases a field name character by character, modelling the
case-insensitive treatment of header names. -/
def lowerName (s : String) : List Char :=
  s.data.map Char.toLower

/-- Modelled from the spec: heat Field.Is, a case-insensitive comparison of
the field name against a given name. -/
def fieldIs (f : Field) (name : String) : Bool :=
  lowerName f.name == lowerName name

/-- Modelled from the spec: heat Fields.Split, extracting the comma-separated
tokens listed in every header field with the given name. -/
def fieldsSplit (fs : Fields) (name : String) : List String :=
  List.flatten ((fs.filter (fun f => fieldIs f name)).map
    (fun f => (f.value.splitOn ",").map String.trim))

/-- Modelled from the spec: heat Fields.Set, which replaces every field with
the given name by a single field holding the given value. -/
def fieldsSet (fs : Fields) (name : String) (value : String) : Fields :=
  fs.filter (fun f => ! fieldIs f name) ++ [⟨name, value⟩]

/-- Modelled from the spec: heat Fields.Get, the value of the first field
with the given name, used here only to observe results in theorems. -/
def fieldsGet (fs : Fields) (name : String) : Option String :=
  match fs.find? (fun f => fieldIs f name) with
  | some f => some f.value
  | none => none

/-- The Go error values the connection loops distinguish. -/
inductive GoErr where
  | eof
  | readAfterClose
  | requestHeader
  | requestVersion
  | other (msg : String)
deriving DecidableEq, Repr

/-- The message text of an error, as used in formatted status bodies. The
exact text of external errors is irrelevant to every claim. -/
def goErrMsg : GoErr → String
  | GoErr.eof => "EOF"
  | GoErr.readAfterClose => "relay: read after close"
  | GoErr.requestHeader => "malformed request header"
  | GoErr.requestVersion => "unsupported request version"
  | GoErr.other m => m

/-- The bodyReader wrapper (src/util.go): its single piece of state is the
persisted terminal error of the wrapped stream. -/
structure BodyReader where
  e : Option GoErr
deriving DecidableEq, Repr

/-- bodyReader.Read (src/util.go). The underlying stream read result (n, err)
is an input; the wrapper persists the error and, when the call also yielded
data, delays surfacing it until the next call. -/
def BodyReader.read (br : BodyReader) (n : Nat) (err : Option GoErr) :
    (Nat × Option GoErr) × BodyReader :=
  match br.e with
  | some e => ((0, some e), br)
  | none =>
    match err with
    | none => ((n, none), br)
    | some e => ((n, if 0 < n then none else some e), { e := some e })

/-- bodyReader.Close (src/util.go): once a terminal error has been observed,
closing replaces it with the distinguished read-after-close marker. -/
def BodyReader.close (br : BodyReader) : BodyReader × Option GoErr :=
  (match br.e with
   | some _ => { e := some GoErr.readAfterClose }
   | none => br,
   none)

/-- bodyReader.LastError (src/util.go): reports the stored terminal error,
translating the read-after-close marker back to no error. -/
def BodyReader.lastError (br : BodyReader) : Option GoErr :=
  if br.e = some GoErr.readAfterClose then none else br.e

/-- The fixed blacklist of hop-by-hop header names (src/unnamed/part_000). -/
def blacklist : List String :=
  ["Connection", "Keep-Alive", "Public", "Proxy-Authenticate",
   "Proxy-Authorization", "TE", "Trailers", "Transfer-Encoding", "Upgrade",
   "Proxy-Connection", "Content-Length"]

/-- The filtering stage of scrubHeaderFields (src/unnamed/part_000): drop
every field whose name matches the blacklist or a token named in a
Connection header, case-insensitively. -/
def scrubKept (fields : Fields) : Fields :=
  fields.filter fun f =>
    ! (blacklist.any fun name => fieldIs f name) &&
    ! ((fieldsSplit fields "Connection").any fun name => fieldIs f name)

/-- The framing field scrubHeaderFields appends after filtering
(src/unnamed/part_000): Content-Length when the body size is known,
Transfer-Encoding chunked otherwise. heat.BodySize is int64, embedded as
Int, with negative sizes meaning unknown. -/
def framingField (size : Int) : Field :=
  if 0 ≤ size then ⟨"Content-Length", toString size⟩
  else ⟨"Transfer-Encoding", "chunked"⟩

/-- scrubHeaderFields (src/unnamed/part_000): filter out hop-by-hop fields,
then append the framing field. Fields.Add appends, so the framing field is
last. -/
def scrubHeaderFields (fields : Fields) (size : Int) : Fields :=
  scrubKept fields ++ [framingField size]

/-- A parsed HTTP request (heat.Request), restricted to the fields the
proxy reads or writes. The body stream itself lives outside the request as
a BodyReader handle. -/
structure Request where
  method : String
  uri : String
  major : Nat
  minor : Nat
  fields : Fields
  scheme : String
  remote : String
deriving DecidableEq, Repr

/-- A parsed HTTP response (heat.Response). A status page carries its body
text; upstream bodies are opaque and irrelevant to every claim. -/
structure Response where
  status : Nat
  reason : String
  major : Nat
  minor : Nat
  fields : Fields
  body : Option String
deriving DecidableEq, Repr

/-- Modelled from the spec: the result of net/url ParseRequestURI, restricted
to the projections the proxy uses. -/
structure URL where
  scheme : String
  host : String
  requestURI : String
deriving DecidableEq, Repr

/-- net/url IsAbs: a URL is absolute when it has a scheme. -/
def URL.isAbs (u : URL) : Bool :=
  u.scheme != ""

/-- Modelled from the spec: the external heat collaborators the proxy calls,
specified only at their interfaces: the keep-alive close decision, the two
body framing helpers, and the standard reason phrase table. -/
structure HeatExt where
  closing : Nat → Nat → Fields → Bool
  requestBodySize : Request → Except GoErr Int
  responseBodySize : Response → String → Except GoErr Int
  reasonPhrase : Nat → String

/-- statusResponse (src/util.go): a minimal status page with Connection
close, a plain-text content type, and a Content-Length matching the body.
The formatted message arrives here already rendered to a string. -/
def statusResponse (heat : HeatExt) (status : Nat) (body : String) : Response :=
  { status := status
    reason := heat.reasonPhrase status
    major := 1
    minor := 1
    fields := fieldsSet (fieldsSet (fieldsSet [] "Connection" "close")
      "Content-Type" "text/plain; charset=utf-8")
      "Content-Length" (toString body.length)
    body := some body }

/-- scrubRequest (src/unnamed/part_000): force HTTP/1.1, compute the request
body size, and scrub the header fields. A framing error propagates. -/
def scrubRequest (heat : HeatExt) (req : Request) : Except GoErr Request :=
  match heat.requestBodySize { req with major := 1, minor := 1 } with
  | Except.error e => Except.error e
  | Except.ok size =>
    Except.ok { req with
      major := 1
      minor := 1
      fields := scrubHeaderFields req.fields size }

/-- scrubResponse (src/unnamed/part_000): force HTTP/1.1, compute the
response body size given the request method, and scrub the header fields. -/
def scrubResponse (heat : HeatExt) (resp : Response) (method : String) :
    Except GoErr Response :=
  match heat.responseBodySize { resp with major := 1, minor := 1 } method with
  | Except.error e => Except.error e
  | Except.ok size =>
    Except.ok { resp with
      major := 1
      minor := 1
      fields := scrubHeaderFields resp.fields size }

/-- The signing authority (tls.Certificate): a DER chain and a private key,
both opaque byte data here. -/
structure Authority where
  certificate : List (List Nat)
  privateKey : List Nat
deriving DecidableEq, Repr

/-- The Proxy configuration (src/proxy.go): the optional signing authority
and the required round-trip callable. -/
structure Proxy where
  authority : Option Authority
  roundTrip : Request → Except GoErr Response

/-- The early stages of Proxy.proxy (src/unnamed/part_000): parse the
request URI, require it absolute, scrub the request, and point it at the
actual destination. An error result is the status response returned
instead; an ok result is the request as handed to RoundTrip. -/
def proxyPrepare (heat : HeatExt) (urlParse : String → Option URL)
    (req : Request) : Except Response Request :=
  match urlParse req.uri with
  | none => Except.error (statusResponse heat 400 "Invalid URI in request.")
  | some u =>
    if ! u.isAbs then
      Except.error (statusResponse heat 400 "Request URI must be absolute.")
    else
      match scrubRequest heat req with
      | Except.error _ => Except.error (statusResponse heat 500 "Could not scrub request.")
      | Except.ok req1 =>
        Except.ok { req1 with uri := u.requestURI, scheme := u.scheme, remote := u.host }

/-- Proxy.proxy (src/unnamed/part_000): every failure is converted into a
status response paired with a nil error; only a fully scrubbed upstream
response is returned as is. -/
def proxyDispatch (heat : HeatExt) (urlParse : String → Option URL)
    (p : Proxy) (req : Request) : Response × Option GoErr :=
  match proxyPrepare heat urlParse req with
  | Except.error resp => (resp, none)
  | Except.ok req2 =>
    match p.roundTrip req2 with
    | Except.error e =>
      (statusResponse heat 500 ("Round-trip to upstream failed: " ++ goErrMsg e ++ "."), none)
    | Except.ok resp =>
      match scrubResponse heat resp req2.method with
      | Except.error _ => (statusResponse heat 500 "Could not scrub response.", none)
      | Except.ok resp1 => (resp1, none)

/-- The body condition of the keep-alive decision (src/unnamed/part_000 and
src/https.go): body == nil or body.LastError() == io.EOF. -/
def bodyClean : Option BodyReader → Bool
  | none => true
  | some br => decide (br.lastError = some GoErr.eof)

/-- The outcome of one iteration of a connection loop: either the loop goes
on to read the next request after writing the given response, or it stops,
having written the given response if any. -/
inductive HTTPStep where
  | next (written : Response)
  | stop (written : Option Response)
deriving DecidableEq, Repr

/-- Whether the connection stays open for another request. -/
def HTTPStep.continues : HTTPStep → Bool
  | HTTPStep.next _ => true
  | HTTPStep.stop _ => false

/-- The response written to the client during the iteration, if any. -/
def HTTPStep.written : HTTPStep → Option Response
  | HTTPStep.next r => some r
  | HTTPStep.stop r => r

/-- One iteration of serveHTTP (src/unnamed/part_000) after a request has
been read successfully: the CONNECT branch returns at once without writing
anything, otherwise the request is dispatched, the keep-alive decision sets
the Connection header, and the response is written. writeErr is the outcome
of the client-side write; on a write error the loop propagates it. -/
def serveHTTPStep (heat : HeatExt) (urlParse : String → Option URL) (p : Proxy)
    (req : Request) (body : Option BodyReader) (writeErr : Option GoErr) : HTTPStep :=
  if req.method = "CONNECT" then
    HTTPStep.stop none
  else
    let closing := heat.closing req.major req.minor req.fields
    let pr := proxyDispatch heat urlParse p req
    match pr.2 with
    | some e =>
      HTTPStep.stop (some (statusResponse heat 500 ("Unknown error: " ++ goErrMsg e ++ ".")))
    | none =>
      if ! closing && bodyClean body then
        let resp := { pr.1 with fields := fieldsSet pr.1.fields "Connection" "keep-alive" }
        match writeErr with
        | some _ => HTTPStep.stop none
        | none => HTTPStep.next resp
      else
        let resp := { pr.1 with fields := fieldsSet pr.1.fields "Connection" "close" }
        match writeErr with
        | some _ => HTTPStep.stop none
        | none => HTTPStep.stop (some resp)

/-- The request as Proxy.forward (src/https.go) hands it to RoundTrip: the
Connection header is set to keep-alive just before the call. -/
def forwardSent (req : Request) : Request :=
  { req with fields := fieldsSet req.fields "Connection" "keep-alive" }

/-- Proxy.forward (src/https.go): remember whether the client asked to
close, force Connection keep-alive toward the upstream, and set the
client-facing Connection header of the response accordingly. -/
def forward (heat : HeatExt) (p : Proxy) (req : Request) : Except GoErr Response :=
  let isKeepAlive := ! heat.closing req.major req.minor req.fields
  match p.roundTrip (forwardSent req) with
  | Except.error e => Except.error e
  | Except.ok resp =>
    if ! isKeepAlive then
      Except.ok { resp with fields := fieldsSet resp.fields "Connection" "close" }
    else
      Except.ok { resp with fields := fieldsSet resp.fields "Connection" "keep-alive" }

/-- One iteration of serveHTTPS (src/https.go) after a request has been read
successfully: scheme and remote are preset, a forwarding error is replaced
by a 500 status response, then the same keep-alive decision and write as in
the plain loop. -/
def serveHTTPSStep (heat : HeatExt) (p : Proxy) (addr : String)
    (req0 : Request) (body : Option BodyReader) (writeErr : Option GoErr) : HTTPStep :=
  let req := { req0 with scheme := "https", remote := addr }
  let closing := heat.closing req.major req.minor req.fields
  let resp :=
    match forward heat p req with
    | Except.error e =>
      statusResponse heat 500 ("Round-trip to upstream failed: " ++ goErrMsg e ++ ".")
    | Except.ok r => r
  if ! closing && bodyClean body then
    let resp1 := { resp with fields := fieldsSet resp.fields "Connection" "keep-alive" }
    match writeErr with
    | some _ => HTTPStep.stop none
    | none => HTTPStep.next resp1
  else
    let resp1 := { resp with fields := fieldsSet resp.fields "Connection" "close" }
    match writeErr with
    | some _ => HTTPStep.stop none
    | none => HTTPStep.stop (some resp1)

/-- readRequest (src/util.go): the header parse result is an input; on a
parse or framing error no request and no body reader are returned, only the
error. A non-zero body size attaches a fresh bodyReader. -/
def readRequest (heat : HeatExt) (parsed : Except GoErr Request) :
    Option Request × Option BodyReader × Option GoErr :=
  match parsed with
  | Except.error e => (none, none, some e)
  | Except.ok req =>
    match heat.requestBodySize req with
    | Except.error e => (none, none, some e)
    | Except.ok size =>
      if size ≠ 0 then (some req, some { e := none }, none)
      else (some req, none, none)

/-- The result of evaluating a Go expression that may dereference a nil
pointer. -/
inductive GoEval (α : Type) where
  | ok (a : α)
  | nilPanic
deriving DecidableEq, Repr

/-- Evaluating req.Method on a possibly nil request pointer: Go panics when
the pointer is nil. -/
def reqMethod : Option Request → GoEval String
  | none => GoEval.nilPanic
  | some r => GoEval.ok r.method

/-- The error switch of serveHTTP and serveHTTPS (src/unnamed/part_000 and
src/https.go) when readRequest fails: on the malformed-header and
bad-version errors the loop builds a status response and evaluates
req.Method to pass it to writeResponse; on clean EOF and on any other error
nothing is written (the other error is propagated upward). -/
def readErrorBranch (heat : HeatExt) (req? : Option Request) (e : GoErr) :
    GoEval (Option Response) :=
  match e with
  | GoErr.requestHeader =>
    match reqMethod req? with
    | GoEval.nilPanic => GoEval.nilPanic
    | GoEval.ok _ =>
      GoEval.ok (some (statusResponse heat 404 "Malformed HTTP request header."))
  | GoErr.requestVersion =>
    match reqMethod req? with
    | GoEval.nilPanic => GoEval.nilPanic
    | GoEval.ok _ =>
      GoEval.ok (some (statusResponse heat 505 "Unsupported HTTP version number."))
  | GoErr.eof => GoEval.ok none
  | _ => GoEval.ok none

/-- How far Proxy.connect (src/https.go) gets before the TLS machinery: the
authority guard, the tunnel address check, or the forge call. -/
inductive ConnectOutcome where
  | refusedNoAuthority (resp : Response)
  | badAddress (resp : Response)
  | proceedForge (host : String)
deriving DecidableEq, Repr

/-- The decision prefix of Proxy.connect (src/https.go): refuse with 500
when the authority is nil or its certificate chain is empty, refuse with
400 when the tunnel address does not split as host with port 443, and only
then reach the forge call. The message text is adjusted minimally to avoid
an apostrophe. -/
def connectDecision (heat : HeatExt)
    (splitHostPort : String → Option (String × String))
    (p : Proxy) (req : Request) : ConnectOutcome :=
  match p.authority with
  | none =>
    ConnectOutcome.refusedNoAuthority
      (statusResponse heat 500 "Cannot serve CONNECT requests without Proxy.Authority.")
  | some a =>
    if a.certificate.isEmpty then
      ConnectOutcome.refusedNoAuthority
        (statusResponse heat 500 "Cannot serve CONNECT requests without Proxy.Authority.")
    else
      match splitHostPort req.uri with
      | none =>
        ConnectOutcome.badAddress
          (statusResponse heat 400 ("Invalid CONNECT address: " ++ req.uri ++ "."))
      | some hp =>
        if hp.2 ≠ "443" then
          ConnectOutcome.badAddress
            (statusResponse heat 400 ("Invalid CONNECT address: " ++ req.uri ++ "."))
        else
          ConnectOutcome.proceedForge hp.1

/-- Modelled from the spec: SHA-256 as an abstract hash, a pure function
from byte lists to 32-byte digests. -/
def Hash : Type :=
  { f : List Nat → List Nat // ∀ s, (f s).length = 32 }

/-- inf.Read (src/https.go), one call filling need bytes: repeatedly hash
the state, overwrite the state with the digest, and copy up to 32 bytes of
it to the output. Returns the bytes delivered and the final state. A
partial copy at the end still advances the state by a whole digest. -/
def infRead (hash : Hash) (need : Nat) (st : List Nat) : List Nat × List Nat :=
  if need = 0 then ([], st)
  else
    let st1 := hash.1 st
    let chunk := st1.take need
    let rest := infRead hash (need - chunk.length) st1
    (chunk ++ rest.1, rest.2)
termination_by need
decreasing_by
  have h32 := hash.2 st
  simp only [chunk, st1, List.length_take]
  omega

/-- The hash applied k times to the state: the state of inf after k whole
digest blocks. -/
def hashIter (hash : Hash) : Nat → List Nat → List Nat
  | 0, st => st
  | k + 1, st => hashIter hash k (hash.1 st)

/-- The concatenation of the first k digest blocks produced from a state:
the canonical byte stream of the deterministic RNG. -/
def blocksJoin (hash : Hash) (st : List Nat) : Nat → List Nat
  | 0 => []
  | k + 1 => hash.1 st ++ blocksJoin hash (hash.1 st) k

/-- The subject and validity data forge reads off the parsed authority
certificate (x509.ParseCertificate, external). -/
structure CACert where
  subject : String
  notBefore : Nat
  notAfter : Nat
deriving DecidableEq, Repr

/-- An RSA key pair as opaque byte material (crypto/rsa, external). -/
structure RSAKey where
  pub : List Nat
  priv : List Nat
deriving DecidableEq, Repr

/-- The leaf certificate template forge builds (x509.Certificate). -/
structure Template where
  serialNumber : Nat
  subject : String
  notBefore : Nat
  notAfter : Nat
  keyEnciphermentUsage : Bool
  digitalSignatureUsage : Bool
  serverAuthExtUsage : Bool
  basicConstraintsValid : Bool
  ipAddresses : List (List Nat)
  dnsNames : List String
deriving DecidableEq, Repr

/-- Modelled from the spec: the external crypto collaborators of forge,
each a pure function of its arguments. generateKey and createCert consume
the deterministic RNG only through its state, which they receive and
return; any sequence of inf.Read calls is such a function of the initial
state. -/
structure CryptoExt where
  parseCert : List Nat → Option CACert
  parseIP : String → Option (List Nat)
  generateKey : List Nat → RSAKey × List Nat
  createCert : List Nat → Template → CACert → List Nat → List Nat → List Nat × List Nat

/-- The forged certificate (tls.Certificate): the two-element DER chain and
the generated leaf key. -/
structure ForgedCert where
  chain : List (List Nat)
  privateKey : RSAKey
deriving DecidableEq, Repr

/-- The byte serialization of a hostname, modelling the []byte conversion
fed to SHA-256. -/
def strBytes (s : String) : List Nat :=
  s.data.map Char.toNat

/-- big.Int SetBytes: the big-endian unsigned integer named by a byte
list. -/
def beNat (bs : List Nat) : Nat :=
  bs.foldl (fun acc b => acc * 256 + b) 0

/-- The leaf template forge builds for a hostname (src/https.go): serial
number from the seed, subject and validity window copied from the
authority, fixed key usages, and the subject-alt-name set chosen by whether
the hostname parses as an IP literal. -/
def forgeTemplate (C : CryptoExt) (hash : Hash) (x509ca : CACert) (host : String) :
    Template :=
  let seed := hash.1 (strBytes host)
  { serialNumber := beNat seed
    subject := x509ca.subject
    notBefore := x509ca.notBefore
    notAfter := x509ca.notAfter
    keyEnciphermentUsage := true
    digitalSignatureUsage := true
    serverAuthExtUsage := true
    basicConstraintsValid := true
    ipAddresses :=
      match C.parseIP host with
      | some ip => [ip]
      | none => []
    dnsNames :=
      match C.parseIP host with
      | some _ => []
      | none => [host] }

/-- Proxy.forge (src/https.go): parse the authority certificate, derive the
seed from the hostname, build the template, generate the key from a fresh
RNG seeded with the seed, sign the template continuing with the same RNG
state, and return the chain with the key. The source indexes the first
chain element under the connect guard that the chain is non-empty. -/
def forge (C : CryptoExt) (hash : Hash) (A : Authority) (host : String) :
    Option ForgedCert :=
  match C.parseCert (A.certificate.headD []) with
  | none => none
  | some x509ca =>
    let seed := hash.1 (strBytes host)
    let template := forgeTemplate C hash x509ca host
    let kg := C.generateKey seed
    let cc := C.createCert kg.2 template x509ca kg.1.pub A.privateKey
    some { chain := [cc.1, A.certificate.headD []], privateKey := kg.1 }

/-- The ambient process state forge could in principle observe: the wall
clock and the OS entropy source. The source consults neither: validity
comes from the authority certificate and all randomness from the
seed-keyed inf stream. -/
structure World where
  now : Nat
  entropy : Nat → Nat

/-- forge with the ambient world made explicit: the result ignores the
world and the world is returned unchanged. -/
def forgeInWorld (C : CryptoExt) (hash : Hash) (A : Authority) (host : String)
    (w : World) : Option ForgedCert × World :=
  (forge C hash A host, w)

/-- A concrete instantiation of the heat collaborators, used to evaluate
the model at specific inputs: the client never requests close, every body
size is zero, reason phrases are empty. -/
def exHeat : HeatExt :=
  { closing := fun _ _ _ => false
    requestBodySize := fun _ => Except.ok 0
    responseBodySize := fun _ _ => Except.ok 0
    reasonPhrase := fun _ => "" }

/-- A concrete URI parser that accepts everything as an absolute http URL
on host x.example with path slash. -/
def exParse : String → Option URL :=
  fun _ => some { scheme := "http", host := "x.example", requestURI := "/" }

/-- A concrete keep-alive GET request with no header fields and no body. -/
def exReq : Request :=
  { method := "GET", uri := "http://x.example/", major := 1, minor := 1
    fields := [], scheme := "", remote := "" }

/-- The request exReq as proxyPrepare hands it to RoundTrip under exHeat
and exParse: scrubbed, with only the framing field left, and pointed at the
destination. -/
def exPrepared : Request :=
  { method := "GET", uri := "/", major := 1, minor := 1
    fields := [{ name := "Content-Length", value := "0" }]
    scheme := "http", remote := "x.example" }

/-- A concrete upstream response with no header fields. -/
def exUpstream : Response :=
  { status := 200, reason := "OK", major := 1, minor := 1, fields := [], body := none }

/-- A proxy whose round trip always succeeds with exUpstream. -/
def exProxyOk : Proxy :=
  { authority := none, roundTrip := fun _ => Except.ok exUpstream }

/-- A proxy whose round trip always fails. -/
def exProxyFail : Proxy :=
  { authority := none, roundTrip := fun _ => Except.error (GoErr.other "boom") }

/- ------------------------------------------------------------------ -/
/- Helper lemmas -/
/- ------------------------------------------------------------------ -/

theorem any_eq_false_of {α : Type} {l : List α} {p : α → Bool}
    (h : ∀ x ∈ l, p x = false) : l.any p = false := by
  cases ha : l.any p
  · rfl
  · obtain ⟨x, hx, hpx⟩ := List.any_eq_true.mp ha
    rw [h x hx] at hpx
    exact absurd hpx (by simp)

theorem eq_false_of_any_eq_false {α : Type} {l : List α} {p : α → Bool}
    (h : l.any p = false) {x : α} (hx : x ∈ l) : p x = false := by
  cases hpx : p x
  · rfl
  · rw [List.any_eq_true.mpr ⟨x, hx, hpx⟩] at h
    exact absurd h (by simp)

theorem fieldIs_mk (n v m : String) :
    fieldIs { name := n, value := v } m = (lowerName n == lowerName m) := rfl

theorem fieldIs_self (n v : String) : fieldIs { name := n, value := v } n = true := by
  rw [fieldIs_mk]
  exact beq_self_eq_true (lowerName n)

theorem mem_scrubKept {F : Fields} {f : Field} (hf : f ∈ scrubKept F) :
    (blacklist.any fun name => fieldIs f name) = false ∧
    ((fieldsSplit F "Connection").any fun name => fieldIs f name) = false := by
  unfold scrubKept at hf
  have hp := (List.mem_filter.mp hf).2
  simp only [Bool.and_eq_true, Bool.not_eq_true'] at hp
  exact hp

theorem fieldIs_framing_conn (s : Int) :
    fieldIs (framingField s) "Connection" = false := by
  unfold framingField
  split
  · show (lowerName "Content-Length" == lowerName "Connection") = false
    decide
  · show (lowerName "Transfer-Encoding" == lowerName "Connection") = false
    decide

theorem framingField_in_blacklist (s : Int) :
    (blacklist.any fun name => fieldIs (framingField s) name) = true := by
  unfold framingField
  split
  · exact List.any_eq_true.mpr ⟨"Content-Length", by decide,
      by show (lowerName "Content-Length" == lowerName "Content-Length") = true; decide⟩
  · exact List.any_eq_true.mpr ⟨"Transfer-Encoding", by decide,
      by show (lowerName "Transfer-Encoding" == lowerName "Transfer-Encoding") = true; decide⟩

theorem mem_scrub_not_connection {F : Fields} {s : Int} {f : Field}
    (hf : f ∈ scrubHeaderFields F s) : fieldIs f "Connection" = false := by
  unfold scrubHeaderFields at hf
  rcases List.mem_append.mp hf with hk | hfr
  · exact eq_false_of_any_eq_false (mem_scrubKept hk).1 (by decide)
  · rw [List.mem_singleton] at hfr
    subst hfr
    exact fieldIs_framing_conn s

theorem fieldsSplit_scrub_connection (F : Fields) (s : Int) :
    fieldsSplit (scrubHeaderFields F s) "Connection" = [] := by
  unfold fieldsSplit
  have hnil : (scrubHeaderFields F s).filter (fun f => fieldIs f "Connection") = [] :=
    List.filter_eq_nil_iff.mpr fun f hf => by simp [mem_scrub_not_connection hf]
  rw [hnil]
  rfl

theorem scrubKept_scrub (F : Fields) (s : Int) :
    scrubKept (scrubHeaderFields F s) = scrubKept F := by
  unfold scrubKept
  rw [fieldsSplit_scrub_connection]
  simp only [List.any_nil, Bool.not_false, Bool.and_true]
  conv_lhs => rw [scrubHeaderFields]
  rw [List.filter_append]
  have h1 : (scrubKept F).filter (fun f => ! (blacklist.any fun name => fieldIs f name))
      = scrubKept F :=
    List.filter_eq_self.mpr fun f hf => by simp [(mem_scrubKept hf).1]
  have h2 : [framingField s].filter (fun f => ! (blacklist.any fun name => fieldIs f name))
      = [] := by
    simp [framingField_in_blacklist s]
  rw [h1, h2, List.append_nil]
  rfl

theorem proxyDispatch_snd (heat : HeatExt) (urlParse : String → Option URL)
    (p : Proxy) (req : Request) : (proxyDispatch heat urlParse p req).2 = none := by
  unfold proxyDispatch
  cases hpp : proxyPrepare heat urlParse req with
  | error r => rfl
  | ok req2 =>
    cases hrt : p.roundTrip req2 with
    | error e => simp [hrt]
    | ok resp =>
      cases hsc : scrubResponse heat resp req2.method with
      | error e => simp [hrt, hsc]
      | ok resp1 => simp [hrt, hsc]

/- ------------------------------------------------------------------ -/
/- Claim theorems -/
/- ------------------------------------------------------------------ -/

/-- C10: the plain-HTTP dispatch helper Proxy.proxy returns a nil error for
every request: URI-parse failures, scrub failures and round-trip failures
are each converted into a status response return value, so the branch of
serveHTTP that handles a non-nil error from it is unreachable. -/
theorem proxy_error_branch_unreachable (heat : HeatExt) (urlParse : String → Option URL)
    (p : Proxy) (req : Request) :
    (proxyDispatch heat urlParse p req).2 = none :=
  proxyDispatch_snd heat urlParse p req

/-- C5: header scrubbing is idempotent: scrubbing an already scrubbed field
list with the same body size yields exactly the same field list, fields and
order included. -/
theorem scrub_idempotent (F : Fields) (s : Int) :
    scrubHeaderFields (scrubHeaderFields F s) s = scrubHeaderFields F s := by
  conv_lhs => rw [scrubHeaderFields]
  rw [scrubKept_scrub]
  rfl

/-- C4 counterexample: the claim that after scrub no field matches the
blacklist fails at the empty field list with body size zero: the scrubber
itself appends a Content-Length framing field, and Content-Length is on the
blacklist. -/
theorem scrub_blacklist_counterexample :
    ¬ (∀ f ∈ scrubHeaderFields [] 0, ∀ name ∈ blacklist, fieldIs f name = false) := by
  decide

/-- C4 (amended): scrub is the filtering stage followed by one appended
framing field; every field produced by the filtering stage matches,
case-insensitively, neither a blacklist name nor a token listed in the
Connection headers of the input. Only the appended framing field, which
bears a blacklisted name by construction, escapes this. -/
theorem scrub_removes_hopbyhop (F : Fields) (s : Int) :
    scrubHeaderFields F s = scrubKept F ++ [framingField s] ∧
    ∀ f ∈ scrubKept F,
      (∀ name ∈ blacklist, fieldIs f name = false) ∧
      (∀ t ∈ fieldsSplit F "Connection", fieldIs f t = false) := by
  refine ⟨rfl, fun f hf => ?_⟩
  have h := mem_scrubKept hf
  exact ⟨fun name hn => eq_false_of_any_eq_false h.1 hn,
         fun t ht => eq_false_of_any_eq_false h.2 ht⟩

theorem scrub_removes_hopbyhop_witness :
    fieldIs { name := "Host", value := "a" } "Connection" = false :=
  ((scrub_removes_hopbyhop [{ name := "Host", value := "a" }] 0).2
    { name := "Host", value := "a" } (by decide)).1 "Connection" (by decide)

theorem fieldsGet_set (fs : Fields) (n v : String) :
    fieldsGet (fieldsSet fs n v) n = some v := by
  unfold fieldsGet fieldsSet
  rw [List.find?_append]
  have h1 : (fs.filter (fun f => ! fieldIs f n)).find? (fun f => fieldIs f n) = none :=
    List.find?_eq_none.mpr fun f hf => by
      have hp := (List.mem_filter.mp hf).2
      simp_all
  rw [h1]
  simp [List.find?, fieldIs_self]

/-- C1: for every request handled by either connection loop, when the
response write succeeds the connection stays open for another request
exactly when the client did not request close and the request body reader
ended in a clean EOF, a request with no body counting as a clean end. -/
theorem keepalive_iff (heat : HeatExt) (urlParse : String → Option URL) (p : Proxy)
    (req : Request) (body : Option BodyReader) (addr : String)
    (hm : req.method ≠ "CONNECT") :
    (serveHTTPStep heat urlParse p req body none).continues
      = (! heat.closing req.major req.minor req.fields && bodyClean body) ∧
    (serveHTTPSStep heat p addr req body none).continues
      = (! heat.closing req.major req.minor req.fields && bodyClean body) := by
  constructor
  · unfold serveHTTPStep
    rw [if_neg hm]
    have hd := proxyDispatch_snd heat urlParse p req
    simp only [hd]
    cases hb : (! heat.closing req.major req.minor req.fields && bodyClean body) <;>
      simp [hb, HTTPStep.continues]
  · unfold serveHTTPSStep
    cases hb : (! heat.closing req.major req.minor req.fields && bodyClean body) <;>
      simp [hb, HTTPStep.continues]

theorem keepalive_iff_witness :
    (serveHTTPStep exHeat exParse exProxyOk exReq none none).continues
      = (! exHeat.closing exReq.major exReq.minor exReq.fields && bodyClean none) :=
  (keepalive_iff exHeat exParse exProxyOk exReq none "x.example:443" (by decide)).1

/-- C3 counterexample: with a keep-alive client and a request with no body,
a failing round trip produces a 500 response whose Connection header is
keep-alive, and both loops go on to read another request: the loop
keep-alive decision overwrites the Connection close header of the status
response, so the claimed unconditional close and termination are false. -/
theorem upstream_error_keepalive_counterexample :
    (serveHTTPStep exHeat exParse exProxyFail exReq none none).continues = true ∧
    ((serveHTTPStep exHeat exParse exProxyFail exReq none none).written.map
      (fun r => (r.status, fieldsGet r.fields "Connection")))
      = some (500, some "keep-alive") ∧
    (serveHTTPSStep exHeat exProxyFail "x.example:443" exReq none none).continues = true ∧
    ((serveHTTPSStep exHeat exProxyFail "x.example:443" exReq none none).written.map
      (fun r => (r.status, fieldsGet r.fields "Connection")))
      = some (500, some "keep-alive") := by
  decide

/-- C3 (amended): whenever the round-trip callable returns an error the
client receives a 500 status response, but its Connection header and the
fate of the connection follow the ordinary keep-alive decision: the
connection terminates, with Connection close, exactly when the client
requested close or the request body reader did not end in a clean EOF. -/
theorem upstream_error_keepalive :
    (∀ (heat : HeatExt) (urlParse : String → Option URL) (p : Proxy)
        (req req2 : Request) (body : Option BodyReader) (e : GoErr),
      req.method ≠ "CONNECT" →
      proxyPrepare heat urlParse req = Except.ok req2 →
      p.roundTrip req2 = Except.error e →
      (serveHTTPStep heat urlParse p req body none).continues
        = (! heat.closing req.major req.minor req.fields && bodyClean body) ∧
      (serveHTTPStep heat urlParse p req body none).written.map
          (fun r => (r.status, fieldsGet r.fields "Connection"))
        = some (500, some (if ! heat.closing req.major req.minor req.fields && bodyClean body
                           then "keep-alive" else "close"))) ∧
    (∀ (heat : HeatExt) (p : Proxy) (addr : String) (req0 : Request)
        (body : Option BodyReader) (e : GoErr),
      p.roundTrip (forwardSent { req0 with scheme := "https", remote := addr })
        = Except.error e →
      (serveHTTPSStep heat p addr req0 body none).continues
        = (! heat.closing req0.major req0.minor req0.fields && bodyClean body) ∧
      (serveHTTPSStep heat p addr req0 body none).written.map
          (fun r => (r.status, fieldsGet r.fields "Connection"))
        = some (500, some (if ! heat.closing req0.major req0.minor req0.fields && bodyClean body
                           then "keep-alive" else "close"))) := by
  constructor
  · intro heat urlParse p req req2 body e hm hpp hrt
    have hpd : proxyDispatch heat urlParse p req
        = (statusResponse heat 500 ("Round-trip to upstream failed: " ++ goErrMsg e ++ "."),
           none) := by
      unfold proxyDispatch
      rw [hpp]
      simp [hrt]
    unfold serveHTTPStep
    rw [if_neg hm]
    simp only [hpd]
    cases hb : (! heat.closing req.major req.minor req.fields && bodyClean body) <;>
      simp [hb, HTTPStep.continues, HTTPStep.written, statusResponse, fieldsGet_set]
  · intro heat p addr req0 body e hrt
    have hfw : forward heat p { req0 with scheme := "https", remote := addr }
        = Except.error e := by
      unfold forward
      rw [hrt]
    unfold serveHTTPSStep
    simp only [hfw]
    cases hb : (! heat.closing req0.major req0.minor req0.fields && bodyClean body) <;>
      simp [hb, HTTPStep.continues, HTTPStep.written, statusResponse, fieldsGet_set]

theorem upstream_error_keepalive_witness :
    (serveHTTPStep exHeat exParse exProxyFail exReq none none).continues
      = (! exHeat.closing exReq.major exReq.minor exReq.fields && bodyClean none) :=
  (upstream_error_keepalive.1 exHeat exParse exProxyFail exReq exPrepared none
    (GoErr.other "boom") (by decide) rfl rfl).1

/-- C7 counterexample: on the plain-HTTP path the request handed to the
round-trip callable carries no Connection header at all: the scrubber
removes every Connection field and nothing re-adds one, so the claim that
every forwarded request carries Connection keep-alive is false. -/
theorem roundtrip_connection_counterexample :
    proxyPrepare exHeat exParse exReq = Except.ok exPrepared ∧
    (exPrepared.fields.any fun f => fieldIs f "Connection") = false :=
  ⟨rfl, by decide⟩

/-- C7 (amended): on the HTTPS forwarding path every request reaches the
round-trip callable with its Connection header set to keep-alive; on the
plain-HTTP path the request reaching the callable carries no Connection
field whatsoever, the scrubber having removed them all. -/
theorem roundtrip_connection_header :
    (∀ (req : Request),
      fieldsGet (forwardSent req).fields "Connection" = some "keep-alive") ∧
    (∀ (heat : HeatExt) (urlParse : String → Option URL) (req req2 : Request),
      proxyPrepare heat urlParse req = Except.ok req2 →
      ∀ f ∈ req2.fields, fieldIs f "Connection" = false) := by
  constructor
  · intro req
    exact fieldsGet_set req.fields "Connection" "keep-alive"
  · intro heat urlParse req req2 hpp f hf
    unfold proxyPrepare at hpp
    cases hu : urlParse req.uri with
    | none => rw [hu] at hpp; exact absurd hpp (by simp)
    | some u =>
      rw [hu] at hpp
      dsimp only at hpp
      split at hpp
      · exact absurd hpp (by simp)
      · cases hsr : scrubRequest heat req with
        | error e => rw [hsr] at hpp; exact absurd hpp (by simp)
        | ok req1 =>
          rw [hsr] at hpp
          dsimp only at hpp
          have hreq2 :
              ({ req1 with uri := u.requestURI, scheme := u.scheme, remote := u.host }
                : Request) = req2 := by
            injection hpp
          unfold scrubRequest at hsr
          cases hbs : heat.requestBodySize { req with major := 1, minor := 1 } with
          | error e => rw [hbs] at hsr; exact absurd hsr (by simp)
          | ok size =>
            rw [hbs] at hsr
            dsimp only at hsr
            have hreq1 :
                ({ req with
                    major := 1
                    minor := 1
                    fields := scrubHeaderFields req.fields size } : Request) = req1 := by
              injection hsr
            rw [← hreq2, ← hreq1] at hf
            exact mem_scrub_not_connection hf

theorem roundtrip_connection_header_witness :
    fieldIs { name := "Content-Length", value := "0" } "Connection" = false :=
  roundtrip_connection_header.2 exHeat exParse exReq exPrepared rfl
    { name := "Content-Length", value := "0" } (by decide)

/-- C8: the CONNECT branch of serveHTTP returns at once without writing
anything, whatever the proxy configuration, so Proxy.connect and its
authority guard are never reached from the plain loop: no certificate is
ever forged and no tunnel completes, but the client receives no 500
either. The guard itself, were it invoked, refuses with a 500 status
response both when the authority is nil and when its certificate chain is
empty, without reaching the forge call. -/
theorem connect_unwired :
    (∀ (heat : HeatExt) (urlParse : String → Option URL) (p : Proxy) (r : Request)
        (body : Option BodyReader) (writeErr : Option GoErr),
      serveHTTPStep heat urlParse p { r with method := "CONNECT" } body writeErr
        = HTTPStep.stop none) ∧
    (∀ (heat : HeatExt) (splitHostPort : String → Option (String × String))
        (rt : Request → Except GoErr Response) (req : Request),
      connectDecision heat splitHostPort { authority := none, roundTrip := rt } req
        = ConnectOutcome.refusedNoAuthority
            (statusResponse heat 500 "Cannot serve CONNECT requests without Proxy.Authority.")) ∧
    (∀ (heat : HeatExt) (splitHostPort : String → Option (String × String))
        (rt : Request → Except GoErr Response) (pk : List Nat) (req : Request),
      connectDecision heat splitHostPort
          { authority := some { certificate := [], privateKey := pk }, roundTrip := rt } req
        = ConnectOutcome.refusedNoAuthority
            (statusResponse heat 500 "Cannot serve CONNECT requests without Proxy.Authority.")) := by
  refine ⟨fun heat urlParse p r body writeErr => ?_, fun _ _ _ _ => rfl, fun _ _ _ _ _ => rfl⟩
  simp [serveHTTPStep]

/-- C9 counterexample: when readRequest fails with the malformed-header
error it returns no request, and the error branch then evaluates
req.Method on a nil request: the write is not well-defined, it is a nil
dereference, so no 404 is written. -/
theorem malformed_header_counterexample :
    readErrorBranch exHeat none GoErr.requestHeader = GoEval.nilPanic := rfl

/-- C9 (amended): on the malformed-header error readRequest returns no
request value; the connection loop then builds a 404 status response but
evaluating req.Method for the write dereferences the nil request, so the
write is not well-defined and the connection terminates through that nil
dereference; only with a parsed request in hand would the branch write the
404. -/
theorem malformed_header_nil_method :
    (∀ (heat : HeatExt) (e : GoErr),
      readRequest heat (Except.error e) = (none, none, some e)) ∧
    (∀ (heat : HeatExt),
      readErrorBranch heat none GoErr.requestHeader = GoEval.nilPanic) ∧
    (∀ (heat : HeatExt) (r : Request),
      readErrorBranch heat (some r) GoErr.requestHeader
        = GoEval.ok (some (statusResponse heat 404 "Malformed HTTP request header."))) :=
  ⟨fun _ _ => rfl, fun _ => rfl, fun _ _ => rfl⟩

theorem infRead_spec (hash : Hash) : ∀ (need : Nat) (st : List Nat),
    infRead hash need st
      = ((blocksJoin hash st ((need + 31) / 32)).take need,
         hashIter hash ((need + 31) / 32) st) := by
  intro need
  induction need using Nat.strong_induction_on with
  | _ need ih =>
    intro st
    by_cases hz : need = 0
    · subst hz
      rw [infRead]
      simp [blocksJoin, hashIter]
    · rw [infRead, if_neg hz]
      simp only []
      have hlen : ((hash.1 st).take need).length = min need 32 := by
        rw [List.length_take, hash.2 st]
      by_cases hle : need ≤ 32
      · have hmin : min need 32 = need := Nat.min_eq_left hle
        have hk : (need + 31) / 32 = 1 := by omega
        rw [hlen, hmin, Nat.sub_self, hk]
        rw [ih 0 (Nat.pos_of_ne_zero hz) (hash.1 st)]
        simp [blocksJoin, hashIter]
      · have hmin : min need 32 = 32 := Nat.min_eq_right (by omega)
        have htake : (hash.1 st).take need = hash.1 st :=
          List.take_of_length_le (by rw [hash.2 st]; omega)
        have hk : (need + 31) / 32 = (need - 32 + 31) / 32 + 1 := by omega
        rw [hlen, hmin, hk]
        rw [ih (need - 32) (by omega) (hash.1 st)]
        rw [htake]
        show (hash.1 st ++ (blocksJoin hash (hash.1 st) ((need - 32 + 31) / 32)).take (need - 32),
              hashIter hash ((need - 32 + 31) / 32) (hash.1 st))
          = ((blocksJoin hash st ((need - 32 + 31) / 32 + 1)).take need,
             hashIter hash ((need - 32 + 31) / 32 + 1) st)
        rw [blocksJoin]
        rw [List.take_append_eq_append_take]
        rw [htake, hash.2 st]
        rfl

/-- C2: forgery determinism. First conjunct: forge never consults the
ambient clock or OS entropy, so a second call, sequenced after the first
through the world, returns byte-identical output: the same leaf chain and
the same private key material. Second conjunct: one call to inf.Read
delivers exactly the first need bytes of the iterated-hash block stream of
its state and advances the state by a whole number of digests, so every
byte the key generation and the signing consume is a pure function of the
hostname-derived seed. -/
theorem forge_deterministic :
    (∀ (C : CryptoExt) (hash : Hash) (A : Authority) (host : String) (w : World),
      (forgeInWorld C hash A host w).2 = w ∧
      (forgeInWorld C hash A host ((forgeInWorld C hash A host w).2)).1
        = (forgeInWorld C hash A host w).1) ∧
    (∀ (hash : Hash) (need : Nat) (st : List Nat),
      infRead hash need st
        = ((blocksJoin hash st ((need + 31) / 32)).take need,
           hashIter hash ((need + 31) / 32) st)) :=
  ⟨fun _ _ _ _ _ => ⟨rfl, rfl⟩, fun hash need st => infRead_spec hash need st⟩

/-- C6: the leaf template forge builds has serial number equal to the
big-endian unsigned integer named by the SHA-256 digest of the hostname
bytes, and its subject-alt-name set is exactly one IP address and no DNS
names when the hostname parses as an IP literal, otherwise exactly the one
DNS name and no IP addresses. -/
theorem forge_serial_and_san (C : CryptoExt) (hash : Hash) (ca : CACert) (host : String) :
    (forgeTemplate C hash ca host).serialNumber = beNat (hash.1 (strBytes host)) ∧
    ((forgeTemplate C hash ca host).ipAddresses, (forgeTemplate C hash ca host).dnsNames)
      = (match C.parseIP host with
         | some ip => ([ip], [])
         | none => ([], [host])) := by
  refine ⟨rfl, ?_⟩
  unfold forgeTemplate
  cases hip : C.parseIP host <;> simp [hip]

end Relay
